import Mathlib

/-! Verification of the storefront theme client-side orchestration code:
    the facet-filter, pagination and cart-drawer components
    (assets/main.js FacetFilters, custom-pagination.js CustomPagination,
    assets/cart-drawer.js CartDrawer). Each section embeds the relevant
    source functions as Lean definitions and proves or refutes the
    specification claims about them. -/

namespace Storefront

/-! ## URLSearchParams model

    FacetFilters.handleFilterChange builds a URLSearchParams value from the
    facets form, optionally merges a sort_by value, collects the keys that
    occur with an empty value and deletes them. We model URLSearchParams as
    an ordered list of key/value pairs with the exact get/set/delete
    semantics of the web API. -/

/-- A URLSearchParams value: an ordered list of key/value pairs. -/
abbrev Params := List (String × String)

/-- URLSearchParams.get: the value of the first pair with the given key. -/
def uspGet (ps : Params) (k : String) : Option String :=
  (ps.find? (fun p => p.1 == k)).map Prod.snd

/-- URLSearchParams.delete: removes every pair with the given key. -/
def uspDelete (ps : Params) (k : String) : Params :=
  ps.filter (fun p => p.1 != k)

/-- URLSearchParams.set: replaces the value of the first pair with the given
    key and removes the remaining pairs with that key; appends a fresh pair
    when the key is absent. -/
def uspSet : Params → String → String → Params
  | [], k, v => [(k, v)]
  | p :: ps, k, v =>
    if p.1 == k then (k, v) :: uspDelete ps k
    else p :: uspSet ps k v

/-- Inputs of FacetFilters.handleFilterChange: the serialized facets form
    (new FormData passed to URLSearchParams) and the event and sort
    configuration the handler consults. -/
structure FilterChangeInput where
  /-- new URLSearchParams(new FormData(this.form)) -/
  formData : Params
  /-- this.sortingEnabled -/
  sortingEnabled : Bool
  /-- whether evt.target.tagName is CUSTOM-SELECT -/
  evtIsCustomSelect : Bool
  /-- evt.detail.selectedValue for custom-select events -/
  evtSelectedValue : String
  /-- whether this.mobileSortByOptions is non-empty, so the forEach body
      that overwrites currentSortBy runs at least once -/
  hasMobileSortByOptions : Bool
  deriving DecidableEq

/-- The sort_by value handleFilterChange settles on: the first sort_by value
    of the form, overwritten by the selected value of the desktop sort
    control when the event came from it. -/
def currentSortBy (inp : FilterChangeInput) : Option String :=
  if inp.evtIsCustomSelect && inp.hasMobileSortByOptions then some inp.evtSelectedValue
  else uspGet inp.formData "sort_by"

/-- The params right before the empty-parameter sweep: when sorting is
    enabled, searchParams.set overwrites sort_by (JS stringifies a null
    currentSortBy to the string "null"); otherwise the serialized form is
    used as is. -/
def mergedParams (inp : FilterChangeInput) : Params :=
  if inp.sortingEnabled then
    uspSet inp.formData "sort_by" ((currentSortBy inp).getD "null")
  else inp.formData

/-- The emptyParams array: keys pushed by the searchParams.forEach pass for
    every pair whose value is the empty string. -/
def emptyKeys (ps : Params) : List String :=
  (ps.filter (fun p => p.2 == "")).map Prod.fst

/-- The empty-parameter sweep: emptyParams.forEach deleting each collected
    key from searchParams. -/
def stripEmpty (ps : Params) : Params :=
  (emptyKeys ps).foldl uspDelete ps

/-- FacetFilters.handleFilterChange: the search params it passes on to
    applyFilters. -/
def handleFilterChange (inp : FilterChangeInput) : Params :=
  stripEmpty (mergedParams inp)

theorem mem_uspDelete {ps : Params} {k : String} {p : String × String} :
    p ∈ uspDelete ps k ↔ p ∈ ps ∧ p.1 ≠ k := by
  simp [uspDelete, List.mem_filter, bne_iff_ne]

theorem mem_foldl_uspDelete {ks : List String} {ps : Params} {p : String × String} :
    p ∈ ks.foldl uspDelete ps ↔ p ∈ ps ∧ p.1 ∉ ks := by
  induction ks generalizing ps with
  | nil => simp
  | cons k ks ih =>
      simp only [List.foldl_cons, ih, mem_uspDelete, List.mem_cons]
      constructor
      · rintro ⟨⟨hmem, hne⟩, hnot⟩
        exact ⟨hmem, by rintro (rfl | h) <;> [exact hne rfl; exact hnot h]⟩
      · rintro ⟨hmem, hnot⟩
        exact ⟨⟨hmem, fun h => hnot (Or.inl h)⟩, fun h => hnot (Or.inr h)⟩

theorem mem_stripEmpty {ps : Params} {p : String × String} :
    p ∈ stripEmpty ps ↔ p ∈ ps ∧ p.1 ∉ emptyKeys ps :=
  mem_foldl_uspDelete

theorem mem_emptyKeys_of_mem {ps : Params} {k : String} (h : (k, "") ∈ ps) :
    k ∈ emptyKeys ps := by
  simp only [emptyKeys, List.mem_map, List.mem_filter]
  exact ⟨(k, ""), ⟨h, rfl⟩, rfl⟩

/-- C6. For every form state, handleFilterChange strips empty values: the
    params it passes to applyFilters contain no pair whose value is the
    empty string. -/
theorem handleFilterChange_no_empty_values (inp : FilterChangeInput)
    (p : String × String) (hmem : p ∈ handleFilterChange inp) : p.2 ≠ "" := by
  obtain ⟨a, b⟩ := p
  rcases mem_stripEmpty.mp hmem with ⟨hin, hnot⟩
  intro hempty
  simp only at hempty
  subst hempty
  exact hnot (mem_emptyKeys_of_mem hin)

/-- Concrete form used by the C6 witness. -/
def filterInputC6 : FilterChangeInput :=
  { formData := [("f.size", "42"), ("q", "shoes"), ("filter.color", ""), ("q", "")]
    sortingEnabled := false
    evtIsCustomSelect := false
    evtSelectedValue := ""
    hasMobileSortByOptions := false }

/-- C6 witness: the theorem applied to a concrete form whose serialization
    carries empty values. -/
theorem handleFilterChange_no_empty_values_witness :
    ("f.size", "42") ∈ handleFilterChange filterInputC6
      ∧ ("f.size", "42").2 ≠ "" :=
  ⟨by decide, handleFilterChange_no_empty_values filterInputC6 ("f.size", "42") (by decide)⟩

/-- C9. The empty-parameter sweep deletes every occurrence of an affected
    key: if a key occurs in the params being swept (the serialized form
    after the optional sort merge) with an empty value and also with a
    non-empty value, then no pair with that key survives into the params
    passed to applyFilters. -/
theorem handleFilterChange_deletes_all_occurrences (inp : FilterChangeInput)
    (k v : String) (hempty : (k, "") ∈ mergedParams inp)
    (_hfull : (k, v) ∈ mergedParams inp) (_hne : v ≠ "") :
    ∀ w, (k, w) ∉ handleFilterChange inp := by
  intro w hmem
  rcases mem_stripEmpty.mp hmem with ⟨_, hnot⟩
  exact hnot (mem_emptyKeys_of_mem hempty)

/-- Concrete form used by the C9 witness: the key filter.color occurs both
    empty and non-empty. -/
def filterInputC9 : FilterChangeInput :=
  { formData := [("filter.color", ""), ("filter.color", "red"), ("q", "shoes")]
    sortingEnabled := false
    evtIsCustomSelect := false
    evtSelectedValue := ""
    hasMobileSortByOptions := false }

/-- C9 witness: the theorem applied to the concrete form, showing that not
    even the non-empty occurrence of filter.color survives. -/
theorem handleFilterChange_deletes_all_occurrences_witness :
    ("filter.color", "") ∈ mergedParams filterInputC9
      ∧ ("filter.color", "red") ∈ mergedParams filterInputC9
      ∧ "red" ≠ ""
      ∧ ("filter.color", "red") ∉ handleFilterChange filterInputC9 :=
  ⟨by decide, by decide, by decide,
    handleFilterChange_deletes_all_occurrences filterInputC9 "filter.color" "red"
      (by decide) (by decide) (by decide) "red"⟩

/-! ## Facet filter groups and the applyFilters UI-state restore

    In the response.ok branch of FacetFilters.applyFilters the fetched
    markup is adjusted before the innerHTML swap: first, for every details
    element of the live form, its open state is copied onto the same-id
    element of the fragment; second, every fragment group whose id was
    recorded in this.expanded (by the show-more handler in
    handleFiltersClick) gets its .js-hidden list items unhidden and its
    .filter__more button removed. -/

/-- A facet filter group: a details element inside a details-disclosure of
    the facets form. hiddenItems and visibleItems count the li elements
    with and without the .js-hidden class; hasShowMore records the presence
    of the .filter__more button. -/
structure FilterGroup where
  id : String
  isOpen : Bool
  hiddenItems : Nat
  visibleItems : Nat
  hasShowMore : Bool
  deriving DecidableEq

/-- getElementById-style lookup: the first group with the given id. -/
def findById (gs : List FilterGroup) (i : String) : Option FilterGroup :=
  gs.find? (fun g => g.id == i)

/-- Copies an open state onto the first group with the given id, if present
    (target = tmpl.content.getElementById(id); if (target) target.open = b). -/
def setOpenById : List FilterGroup → String → Bool → List FilterGroup
  | [], _, _ => []
  | g :: gs, i, b =>
    if g.id == i then { g with isOpen := b } :: gs
    else g :: setOpenById gs i b

/-- Step one of the restore: the forEach over the live form details
    elements, copying each of their open states onto the fragment. -/
def restoreOpenState (oldGroups newGroups : List FilterGroup) : List FilterGroup :=
  oldGroups.foldl (fun acc g => setOpenById acc g.id g.isOpen) newGroups

/-- Unhides the hidden list items of a group and drops its show-more
    button. -/
def expandGroup (g : FilterGroup) : FilterGroup :=
  { g with
    visibleItems := g.visibleItems + g.hiddenItems
    hiddenItems := 0
    hasShowMore := false }

/-- Step two of the restore: the forEach over the fragment details
    elements, expanding those whose id was recorded in this.expanded. -/
def expandRecorded (expanded : List String) (gs : List FilterGroup) : List FilterGroup :=
  gs.map (fun g => if expanded.contains g.id then expandGroup g else g)

/-- The whole UI-state restore applied to the fetched fragment before the
    facets form innerHTML swap. -/
def restoreUiState (oldGroups : List FilterGroup) (expanded : List String)
    (newGroups : List FilterGroup) : List FilterGroup :=
  expandRecorded expanded (restoreOpenState oldGroups newGroups)

theorem findById_cons (g : FilterGroup) (gs : List FilterGroup) (i : String) :
    findById (g :: gs) i = if g.id == i then some g else findById gs i := by
  rw [findById, List.find?_cons]
  by_cases h : (g.id == i) = true
  · rw [h]; simp
  · have hf : (g.id == i) = false := by simpa using h
    rw [hf]; simp [findById]

theorem setOpenById_cons (g : FilterGroup) (gs : List FilterGroup) (i : String) (b : Bool) :
    setOpenById (g :: gs) i b
      = if g.id == i then { g with isOpen := b } :: gs
        else g :: setOpenById gs i b := rfl

theorem findById_setOpenById_self (gs : List FilterGroup) (i : String) (b : Bool) :
    findById (setOpenById gs i b) i
      = (findById gs i).map (fun g => { g with isOpen := b }) := by
  induction gs with
  | nil => rfl
  | cons g gs ih =>
      rw [setOpenById_cons]
      by_cases h : (g.id == i) = true
      · rw [if_pos h, findById_cons, findById_cons]
        simp only [h, if_pos]
        rfl
      · rw [if_neg h, findById_cons, findById_cons, if_neg h, if_neg h, ih]

theorem findById_setOpenById_ne (gs : List FilterGroup) {i j : String}
    (hne : j ≠ i) (b : Bool) :
    findById (setOpenById gs i b) j = findById gs j := by
  induction gs with
  | nil => rfl
  | cons g gs ih =>
      rw [setOpenById_cons]
      by_cases h : (g.id == i) = true
      · have hgj : (g.id == j) = false := by
          have : g.id = i := by simpa using h
          exact beq_false_of_ne (this ▸ fun e => hne e.symm)
        rw [if_pos h, findById_cons, findById_cons]
        simp only [hgj]
        rfl
      · rw [if_neg h, findById_cons, findById_cons, ih]

theorem findById_restoreOpenState_not_mem (oldGroups : List FilterGroup)
    {i : String} (hout : i ∉ oldGroups.map FilterGroup.id) :
    ∀ acc, findById (restoreOpenState oldGroups acc) i = findById acc i := by
  induction oldGroups with
  | nil => intro acc; rfl
  | cons g gs ih =>
      intro acc
      simp only [List.map_cons, List.mem_cons, not_or] at hout
      have step : restoreOpenState (g :: gs) acc
          = restoreOpenState gs (setOpenById acc g.id g.isOpen) := rfl
      rw [step, ih hout.2, findById_setOpenById_ne acc hout.1]

theorem findById_restoreOpenState (oldGroups : List FilterGroup)
    {G : FilterGroup} (hnodup : (oldGroups.map FilterGroup.id).Nodup)
    (hG : G ∈ oldGroups) :
    ∀ acc, findById (restoreOpenState oldGroups acc) G.id
      = (findById acc G.id).map (fun g => { g with isOpen := G.isOpen }) := by
  induction oldGroups with
  | nil => exact absurd hG (List.not_mem_nil G)
  | cons g gs ih =>
      intro acc
      simp only [List.map_cons, List.nodup_cons] at hnodup
      have step : restoreOpenState (g :: gs) acc
          = restoreOpenState gs (setOpenById acc g.id g.isOpen) := rfl
      rcases List.mem_cons.mp hG with rfl | hGt
      · have hout : G.id ∉ gs.map FilterGroup.id := hnodup.1
        rw [step, findById_restoreOpenState_not_mem gs hout,
          findById_setOpenById_self]
      · have hne : g.id ≠ G.id := by
          intro e
          exact hnodup.1 (e ▸ List.mem_map_of_mem FilterGroup.id hGt)
        rw [step, ih hnodup.2 hGt,
          findById_setOpenById_ne acc (fun e => hne e.symm)]

theorem expandRecorded_cons (expanded : List String) (g : FilterGroup)
    (gs : List FilterGroup) :
    expandRecorded expanded (g :: gs)
      = (if expanded.contains g.id then expandGroup g else g)
        :: expandRecorded expanded gs := rfl

theorem expandRecorded_head_id (expanded : List String) (g : FilterGroup) :
    (if expanded.contains g.id then expandGroup g else g).id = g.id := by
  by_cases hc : (expanded.contains g.id) = true
  · rw [if_pos hc]; rfl
  · rw [if_neg hc]

theorem findById_expandRecorded (expanded : List String)
    (gs : List FilterGroup) (i : String) :
    findById (expandRecorded expanded gs) i
      = (findById gs i).map (fun g => if expanded.contains g.id then expandGroup g else g) := by
  induction gs with
  | nil => rfl
  | cons g gs ih =>
      rw [expandRecorded_cons, findById_cons, findById_cons, expandRecorded_head_id]
      by_cases h : (g.id == i) = true
      · rw [if_pos h, if_pos h]; rfl
      · rw [if_neg h, if_neg h, ih]

/-! ## FacetFilters.applyFilters effect model

    One applyFilters run, summarised by the DOM state it reads and writes
    and the observable effects it emits (fetches, pushState calls, console
    warnings). The fetch outcome is an input: the environment decides
    whether the fetch throws (network failure or abort) or yields a
    response, ok or not, carrying a section-rendering fragment. -/

/-- A well-formed section-rendering payload: the #facets filter groups and
    the #filter-results markup. -/
structure Fragment where
  groups : List FilterGroup
  resultsHtml : String
  deriving DecidableEq

/-- Outcome of the fetch inside applyFilters. -/
inductive FetchResult where
  /-- the fetch promise rejected (network failure, or abort by a newer call) -/
  | thrown
  /-- the fetch resolved; ok is response.ok -/
  | response (ok : Bool) (frag : Fragment)
  deriving DecidableEq

/-- The DOM state applyFilters reads and writes. -/
structure FacetsDom where
  /-- content of the facets form (its details groups) -/
  formGroups : List FilterGroup
  /-- innerHTML of the #filter-results element -/
  resultsHtml : String
  /-- whether #filter-results has the is-loading class -/
  resultsLoading : Bool
  deriving DecidableEq

/-- The history.pushState state object ({ searchParams }); searchParams is
    none for states pushed by foreign code. -/
structure HistoryState where
  searchParams : Option String
  deriving DecidableEq

/-- FacetFilters.updateURL: the pushState calls it performs (exactly one,
    with state { searchParams }). -/
def updateURL (searchParams : String) : List HistoryState :=
  [{ searchParams := some searchParams }]

/-- Observable effects of one applyFilters run. -/
structure ApplyEffects where
  /-- search params of the fetches issued -/
  fetched : List String
  /-- history.pushState calls -/
  pushed : List HistoryState
  /-- console.warn calls -/
  warns : Nat
  deriving DecidableEq

/-- FacetFilters.applyFilters: sets the loading state, fetches the filtered
    markup, and on response.ok restores the UI state onto the fragment,
    swaps the facets form and the results, optionally pushes a history
    entry. A thrown fetch reaches the catch block (one console.warn); a
    non-ok response skips the whole success branch silently. The finally
    block removes the is-loading class in every case. -/
def applyFilters (dom : FacetsDom) (expanded : List String) (searchParams : String)
    (updateUrl : Bool) (result : FetchResult) : FacetsDom × ApplyEffects :=
  match result with
  | .thrown =>
      ({ dom with resultsLoading := false },
       { fetched := [searchParams], pushed := [], warns := 1 })
  | .response ok frag =>
      if ok then
        ({ formGroups := restoreUiState dom.formGroups expanded frag.groups
           resultsHtml := frag.resultsHtml
           resultsLoading := false },
         { fetched := [searchParams]
           pushed := if updateUrl then updateURL searchParams else []
           warns := 0 })
      else
        ({ dom with resultsLoading := false },
         { fetched := [searchParams], pushed := [], warns := 0 })

/-- FacetFilters.handleHistoryChange: the popstate listener. A null
    evt.state is ignored; otherwise the stored searchParams (the empty
    string when absent or empty) are replayed through applyFilters with
    updateUrl = false. -/
def handleHistoryChange (dom : FacetsDom) (expanded : List String)
    (evtState : Option HistoryState) (result : FetchResult) :
    FacetsDom × ApplyEffects :=
  match evtState with
  | none => (dom, { fetched := [], pushed := [], warns := 0 })
  | some st =>
      let searchParams :=
        match st.searchParams with
        | some s => if s == "" then "" else s
        | none => ""
      applyFilters dom expanded searchParams false result

/-- C4. Expanded filter groups survive a filter-apply cycle: when the live
    form has a details group G (ids distinct) and the fetched fragment has
    a group with the same id, then after the successful applyFilters swap
    the group with that id carries the open state copied from G, and if its
    id was recorded in this.expanded its hidden items are unhidden and its
    show-more button is gone. -/
theorem applyFilters_preserves_expansion (dom : FacetsDom)
    (expanded : List String) (searchParams : String) (updateUrl : Bool)
    (frag : Fragment) (G : FilterGroup)
    (hnodup : (dom.formGroups.map FilterGroup.id).Nodup)
    (hG : G ∈ dom.formGroups)
    (hnew : (findById frag.groups G.id).isSome = true) :
    ∃ g', findById
        (applyFilters dom expanded searchParams updateUrl
          (FetchResult.response true frag)).1.formGroups G.id = some g'
      ∧ g'.isOpen = G.isOpen
      ∧ (G.id ∈ expanded → g'.hiddenItems = 0 ∧ g'.hasShowMore = false) := by
  rcases Option.isSome_iff_exists.mp hnew with ⟨n, hn⟩
  have hform : (applyFilters dom expanded searchParams updateUrl
      (FetchResult.response true frag)).1.formGroups
      = restoreUiState dom.formGroups expanded frag.groups := rfl
  have hrestore := findById_restoreOpenState dom.formGroups hnodup hG frag.groups
  rw [hn] at hrestore
  have hexp := findById_expandRecorded expanded
    (restoreOpenState dom.formGroups frag.groups) G.id
  rw [hrestore] at hexp
  have hnid : n.id = G.id := by
    have := List.find?_some hn
    simpa using this
  rw [hform, restoreUiState, hexp]
  simp only [Option.map_some']
  by_cases hmem : G.id ∈ expanded
  · have hc : (expanded.contains ({ n with isOpen := G.isOpen } : FilterGroup).id) = true := by
      simpa [hnid] using hmem
    refine ⟨expandGroup { n with isOpen := G.isOpen }, by rw [if_pos hc], rfl, fun _ => ⟨rfl, rfl⟩⟩
  · refine ⟨{ n with isOpen := G.isOpen }, by rw [if_neg (by simpa [hnid] using hmem)], rfl,
      fun h => absurd h hmem⟩

/-- Concrete live form for the C4 witness: the size group is open and was
    recorded in this.expanded via its show-more button. -/
def oldFormC4 : List FilterGroup :=
  [{ id := "filter-color", isOpen := false, hiddenItems := 0, visibleItems := 3, hasShowMore := false },
   { id := "filter-size", isOpen := true, hiddenItems := 0, visibleItems := 12, hasShowMore := false }]

/-- Concrete fetched fragment for the C4 witness: the server rendered the
    size group closed, collapsed and with a show-more button again. -/
def fragC4 : Fragment :=
  { groups :=
      [{ id := "filter-color", isOpen := false, hiddenItems := 2, visibleItems := 3, hasShowMore := true },
       { id := "filter-size", isOpen := false, hiddenItems := 7, visibleItems := 5, hasShowMore := true }]
    resultsHtml := "three red items" }

/-- The group of the C4 witness as it sits in the live form. -/
def groupC4 : FilterGroup :=
  { id := "filter-size", isOpen := true, hiddenItems := 0, visibleItems := 12, hasShowMore := false }

/-- C4 witness: the theorem applied to the concrete form, fragment and
    recorded-expansion list. -/
theorem applyFilters_preserves_expansion_witness :
    (List.map FilterGroup.id oldFormC4).Nodup
      ∧ groupC4 ∈ oldFormC4
      ∧ (findById fragC4.groups groupC4.id).isSome = true
      ∧ ∃ g', findById
          (applyFilters { formGroups := oldFormC4, resultsHtml := "", resultsLoading := false }
            ["filter-size"] "filter.v.option.size=42" true
            (FetchResult.response true fragC4)).1.formGroups groupC4.id = some g'
        ∧ g'.isOpen = groupC4.isOpen
        ∧ (groupC4.id ∈ ["filter-size"] → g'.hiddenItems = 0 ∧ g'.hasShowMore = false) :=
  ⟨by decide, by decide, by decide,
    applyFilters_preserves_expansion
      { formGroups := oldFormC4, resultsHtml := "", resultsLoading := false }
      ["filter-size"] "filter.v.option.size=42" true fragC4 groupC4
      (by decide) (by decide) (by decide)⟩

/-- C5. History round-trip asymmetry: updateURL performs exactly one
    pushState carrying { searchParams }, and a popstate whose non-null
    state is such a pushed entry replays exactly those stored params
    through applyFilters with updateUrl = false, which never pushes a
    second history entry, whatever the fetch outcome. -/
theorem updateURL_popstate_roundtrip (p : String) (dom : FacetsDom)
    (expanded : List String) (result : FetchResult) :
    updateURL p = [{ searchParams := some p }]
      ∧ (handleHistoryChange dom expanded (some { searchParams := some p }) result).2.pushed = []
      ∧ (handleHistoryChange dom expanded (some { searchParams := some p }) result).2.fetched = [p] := by
  have hif : (if p == "" then "" else p) = p := by
    by_cases hp : p = ""
    · simp [hp]
    · simp [beq_false_of_ne hp]
  have hh : handleHistoryChange dom expanded (some { searchParams := some p }) result
      = applyFilters dom expanded p false result := by
    show applyFilters dom expanded (if p == "" then "" else p) false result
        = applyFilters dom expanded p false result
    rw [hif]
  refine ⟨rfl, ?_, ?_⟩ <;>
    · rw [hh]
      cases result with
      | thrown => rfl
      | response ok frag => cases ok <;> rfl

/-- Concrete DOM used by the C7 counterexample and witnesses. -/
def domC7 : FacetsDom :=
  { formGroups := oldFormC4, resultsHtml := "old results", resultsLoading := false }

/-- C7 counterexample: a non-2xx response leaves the catch block unreached,
    so applyFilters emits zero console warnings there, against the claim
    that a console warning is the only report for a non-2xx response. -/
theorem applyFilters_nonOk_emits_no_warning :
    (applyFilters domC7 [] "filter.v.option.color=Red" true
      (FetchResult.response false fragC4)).2.warns = 0 := rfl

/-- C7 (amended). Failure atomicity of applyFilters: on a thrown fetch the
    form groups, the results markup and the history are untouched and one
    console warning is the only report; on a non-2xx response they are
    likewise untouched but nothing at all is reported; the is-loading class
    of the results is absent after the run on success and on both failure
    paths. -/
theorem applyFilters_failure_atomicity (dom : FacetsDom) (expanded : List String)
    (searchParams : String) (updateUrl : Bool) (frag : Fragment) :
    ((applyFilters dom expanded searchParams updateUrl FetchResult.thrown).1.formGroups
        = dom.formGroups
      ∧ (applyFilters dom expanded searchParams updateUrl FetchResult.thrown).1.resultsHtml
        = dom.resultsHtml
      ∧ (applyFilters dom expanded searchParams updateUrl FetchResult.thrown).2.pushed = []
      ∧ (applyFilters dom expanded searchParams updateUrl FetchResult.thrown).2.warns = 1
      ∧ (applyFilters dom expanded searchParams updateUrl FetchResult.thrown).1.resultsLoading
        = false)
    ∧ ((applyFilters dom expanded searchParams updateUrl
          (FetchResult.response false frag)).1.formGroups = dom.formGroups
      ∧ (applyFilters dom expanded searchParams updateUrl
          (FetchResult.response false frag)).1.resultsHtml = dom.resultsHtml
      ∧ (applyFilters dom expanded searchParams updateUrl
          (FetchResult.response false frag)).2.pushed = []
      ∧ (applyFilters dom expanded searchParams updateUrl
          (FetchResult.response false frag)).2.warns = 0
      ∧ (applyFilters dom expanded searchParams updateUrl
          (FetchResult.response false frag)).1.resultsLoading = false)
    ∧ (applyFilters dom expanded searchParams updateUrl
        (FetchResult.response true frag)).1.resultsLoading = false :=
  ⟨⟨rfl, rfl, rfl, rfl, rfl⟩, ⟨rfl, rfl, rfl, rfl, rfl⟩, rfl⟩

/-! ## The applyFilters request race (C1)

    applyFilters keeps a single AbortController slot on the instance
    (this.applyFiltersFetchAbortController). Its synchronous prologue
    aborts the controller already in the slot, installs a fresh one, and
    starts a fetch bound to the fresh signal. The invocation then suspends
    at await fetch and later at await response.text; an abort makes the
    pending promise reject, sending the invocation to its catch block, so
    it never reaches the DOM-mutating branch. We model this as a small-step
    system whose environment chooses when each pending promise settles, in
    any order, and prove that every DOM write is performed by the request
    started most recently at the moment of the write. -/

/-- Global state of the request race: controller ids count applyFilters
    invocations in start order. -/
structure RaceState where
  /-- id the next invocation will take -/
  nextId : Nat
  /-- this.applyFiltersFetchAbortController -/
  current : Option Nat
  /-- controllers whose abort method has been called -/
  aborted : List Nat
  /-- invocations suspended at await fetch -/
  fetchPending : List Nat
  /-- invocations suspended at await response.text -/
  textPending : List Nat
  /-- DOM-mutating branch executions: writer id paired with the value of
      nextId at the moment of the write -/
  domWrites : List (Nat × Nat)
  deriving DecidableEq

/-- Scheduler events: a new applyFilters call, or a pending promise of a
    given invocation settling (resuming that invocation). -/
inductive RaceEvent where
  /-- an applyFilters call runs its synchronous prologue: abort the
      current controller, install a fresh one, start the fetch -/
  | start
  /-- the fetch of invocation i settles (with response.ok = ok) and the
      invocation resumes; if its controller was aborted the promise
      rejects instead and the invocation lands in its catch block -/
  | fetchSettle (i : Nat) (ok : Bool)
  /-- the response.text promise of invocation i settles and the invocation
      resumes; aborted invocations land in the catch block instead -/
  | textSettle (i : Nat)
  deriving DecidableEq

/-- One step of the race. -/
def raceStep (s : RaceState) : RaceEvent → RaceState
  | .start =>
      { s with
        nextId := s.nextId + 1
        current := some s.nextId
        aborted :=
          match s.current with
          | some c => c :: s.aborted
          | none => s.aborted
        fetchPending := s.nextId :: s.fetchPending }
  | .fetchSettle i ok =>
      if i ∈ s.fetchPending then
        let s1 := { s with fetchPending := s.fetchPending.erase i }
        if i ∈ s1.aborted then s1
        else if ok then { s1 with textPending := i :: s1.textPending }
        else s1
      else s
  | .textSettle i =>
      if i ∈ s.textPending then
        let s1 := { s with textPending := s.textPending.erase i }
        if i ∈ s1.aborted then s1
        else { s1 with domWrites := (i, s1.nextId) :: s1.domWrites }
      else s

/-- The initial race state: no invocation yet. -/
def raceInit : RaceState :=
  { nextId := 0, current := none, aborted := [], fetchPending := [], textPending := [],
    domWrites := [] }

/-- The race state after a trace of scheduler events. -/
def raceRun (evs : List RaceEvent) : RaceState :=
  evs.foldl raceStep raceInit

/-- The race invariant: the current controller is the newest one, pending
    invocations are started ones, every started invocation other than the
    current one is aborted, and every recorded DOM write was performed by
    the newest invocation of its moment. -/
structure RaceInv (s : RaceState) : Prop where
  current_newest : ∀ i, s.current = some i → i + 1 = s.nextId
  fetch_lt : ∀ i ∈ s.fetchPending, i < s.nextId
  text_lt : ∀ i ∈ s.textPending, i < s.nextId
  unaborted_is_current : ∀ i, i < s.nextId → i ∉ s.aborted → s.current = some i
  writes_newest : ∀ p ∈ s.domWrites, p.1 + 1 = p.2

theorem raceInv_init : RaceInv raceInit := by
  constructor <;> intro i h <;> simp [raceInit] at h

theorem raceInv_step {s : RaceState} (hs : RaceInv s) (e : RaceEvent) :
    RaceInv (raceStep s e) := by
  cases e with
  | start =>
      constructor
      · intro i h
        simp only [raceStep] at h
        cases h
        rfl
      · intro i h
        simp only [raceStep, List.mem_cons] at h
        rcases h with rfl | h
        · exact Nat.lt_succ_self _
        · exact Nat.lt_succ_of_lt (hs.fetch_lt i h)
      · intro i h
        simp only [raceStep] at h
        exact Nat.lt_succ_of_lt (hs.text_lt i h)
      · intro i hlt hnab
        simp only [raceStep] at hnab ⊢
        rcases Nat.lt_succ_iff_lt_or_eq.mp hlt with hlt' | rfl
        · exfalso
          cases hc : s.current with
          | none =>
              have := hs.unaborted_is_current i hlt'
              rw [hc] at this
              exact Option.noConfusion (this (by simpa [hc] using hnab))
          | some c =>
              have hnab' : i ∉ c :: s.aborted := by simpa [hc] using hnab
              have : s.current = some i :=
                hs.unaborted_is_current i hlt'
                  (fun h => hnab' (List.mem_cons_of_mem c h))
              rw [hc] at this
              cases this
              exact hnab' (List.mem_cons_self _ _)
        · rfl
      · intro p hp
        simp only [raceStep] at hp
        exact hs.writes_newest p hp
  | fetchSettle i ok =>
      by_cases hmem : i ∈ s.fetchPending
      · by_cases hab : i ∈ s.aborted
        · constructor <;> simp only [raceStep, if_pos hmem, if_pos hab]
          · exact hs.current_newest
          · exact fun j hj => hs.fetch_lt j (List.mem_of_mem_erase hj)
          · exact hs.text_lt
          · exact hs.unaborted_is_current
          · exact hs.writes_newest
        · cases ok with
          | true =>
              constructor <;>
                simp only [raceStep, if_pos hmem, if_neg hab, if_pos rfl]
              · exact hs.current_newest
              · exact fun j hj => hs.fetch_lt j (List.mem_of_mem_erase hj)
              · intro j hj
                rcases List.mem_cons.mp hj with rfl | hj
                · exact hs.fetch_lt j hmem
                · exact hs.text_lt j hj
              · exact hs.unaborted_is_current
              · exact hs.writes_newest
          | false =>
              constructor <;>
                simp only [raceStep, if_pos hmem, if_neg hab, Bool.false_eq_true, if_false]
              · exact hs.current_newest
              · exact fun j hj => hs.fetch_lt j (List.mem_of_mem_erase hj)
              · exact hs.text_lt
              · exact hs.unaborted_is_current
              · exact hs.writes_newest
      · simpa only [raceStep, if_neg hmem] using hs
  | textSettle i =>
      by_cases hmem : i ∈ s.textPending
      · by_cases hab : i ∈ s.aborted
        · constructor <;> simp only [raceStep, if_pos hmem, if_pos hab]
          · exact hs.current_newest
          · exact hs.fetch_lt
          · exact fun j hj => hs.text_lt j (List.mem_of_mem_erase hj)
          · exact hs.unaborted_is_current
          · exact hs.writes_newest
        · constructor <;> simp only [raceStep, if_pos hmem, if_neg hab]
          · exact hs.current_newest
          · exact hs.fetch_lt
          · exact fun j hj => hs.text_lt j (List.mem_of_mem_erase hj)
          · exact hs.unaborted_is_current
          · intro p hp
            rcases List.mem_cons.mp hp with rfl | hp
            · have hlt : i < s.nextId := hs.text_lt i hmem
              have := hs.unaborted_is_current i hlt hab
              exact hs.current_newest i this
            · exact hs.writes_newest p hp
      · simpa only [raceStep, if_neg hmem] using hs

theorem raceInv_run (evs : List RaceEvent) : RaceInv (raceRun evs) := by
  suffices h : ∀ s, RaceInv s → RaceInv (evs.foldl raceStep s) from h raceInit raceInv_init
  induction evs with
  | nil => exact fun s hs => hs
  | cons e evs ih => exact fun s hs => ih (raceStep s e) (raceInv_step hs e)

/-- C1. Only the most recently started fetch ever mutates the DOM: in every
    trace of rapid applyFilters invocations and out-of-order promise
    settlements, each recorded DOM write was performed by the invocation
    started last at the moment of the write, and any DOM write added by a
    further event is performed by an invocation that had not been aborted,
    so an aborted (superseded) invocation never reaches its DOM-mutating
    branch. -/
theorem applyFilters_only_latest_request_writes (evs : List RaceEvent) :
    (∀ p ∈ (raceRun evs).domWrites, p.1 + 1 = p.2)
    ∧ (∀ e : RaceEvent, ∀ p ∈ (raceStep (raceRun evs) e).domWrites,
        p ∈ (raceRun evs).domWrites ∨ p.1 ∉ (raceRun evs).aborted) := by
  refine ⟨(raceInv_run evs).writes_newest, ?_⟩
  intro e p hp
  set s := raceRun evs with hs
  cases e with
  | start => exact Or.inl (by simpa only [raceStep] using hp)
  | fetchSettle i ok =>
      by_cases hmem : i ∈ s.fetchPending
      · by_cases hab : i ∈ s.aborted
        · exact Or.inl (by simpa only [raceStep, if_pos hmem, if_pos hab] using hp)
        · cases ok with
          | true =>
              exact Or.inl
                (by simpa only [raceStep, if_pos hmem, if_neg hab, if_pos rfl] using hp)
          | false =>
              exact Or.inl
                (by simpa only [raceStep, if_pos hmem, if_neg hab, Bool.false_eq_true,
                  if_false] using hp)
      · exact Or.inl (by simpa only [raceStep, if_neg hmem] using hp)
  | textSettle i =>
      by_cases hmem : i ∈ s.textPending
      · by_cases hab : i ∈ s.aborted
        · exact Or.inl (by simpa only [raceStep, if_pos hmem, if_pos hab] using hp)
        · have hp' := (by simpa only [raceStep, if_pos hmem, if_neg hab] using hp :
            p ∈ (i, s.nextId) :: s.domWrites)
          rcases List.mem_cons.mp hp' with rfl | hp''
          · exact Or.inr hab
          · exact Or.inl hp''
      · exact Or.inl (by simpa only [raceStep, if_neg hmem] using hp)

/-- A concrete race for the C1 witness: two rapid calls, the second
    response settles first, then the superseded first response arrives
    late; only invocation 1 writes, at the moment nextId was 2. -/
def raceTraceC1 : List RaceEvent :=
  [RaceEvent.start, RaceEvent.start, RaceEvent.fetchSettle 1 true,
   RaceEvent.textSettle 1, RaceEvent.fetchSettle 0 true, RaceEvent.textSettle 0]

/-- C1 witness: the theorem applied to the concrete out-of-order trace. -/
theorem applyFilters_only_latest_request_writes_witness :
    (1, 2) ∈ (raceRun raceTraceC1).domWrites ∧ 1 + 1 = 2 :=
  ⟨by decide, (applyFilters_only_latest_request_writes raceTraceC1).1 (1, 2) (by decide)⟩

/-! ## CustomPagination (custom-pagination.js)

    loadMore is guarded by the isFetching flag and the
    data-pause-infinite-scroll attribute. The try block adds the loading
    state to the load-more button, fetches its href, checks response.ok and
    the pause attribute again, appends the fetched .js-pagination-result
    elements after the last live result, and either rewires the pagination
    from the new markup or, when the fetched pagination carries no
    data-is-more-results, removes the live pagination, the interval timer,
    the observer and every .js-when-paginated-only element. The catch block
    logs and clears the interval timer; the finally block nulls the
    controller, clears the button loading state, resets isFetching and then
    reads this.pagination.dataset, which throws when this.pagination is
    null. -/

/-- The load-more button element (this.loadMoreButton). -/
structure LoadMoreBtn where
  href : String
  /-- is-loading class present -/
  isLoading : Bool
  /-- aria-disabled attribute present -/
  ariaDisabled : Bool
  deriving DecidableEq

/-- The live .js-pagination element (this.pagination points at it even
    after it has been removed from the document). -/
structure PaginationElem where
  /-- data-is-more-results present -/
  isMoreResults : Bool
  /-- data-pagination-style value -/
  paginationStyle : String
  /-- is-loading class present -/
  isLoading : Bool
  /-- still attached to the document -/
  inDom : Bool
  deriving DecidableEq

/-- The .js-pagination element found in a fetched page, with the href of
    its .js-pagination-load-more button when it has one. -/
structure RespPagination where
  isMoreResults : Bool
  loadMoreHref : Option String
  deriving DecidableEq

/-- Body of a fetched next-page document. -/
structure PageBody where
  /-- its .js-pagination-result elements -/
  newResults : List String
  /-- its .js-pagination element, when present -/
  newPagination : Option RespPagination
  deriving DecidableEq

/-- Outcome of the fetch inside loadMore. -/
inductive PagFetch where
  /-- the fetch (or the body read) rejected: network failure or abort -/
  | thrown
  /-- the fetch resolved with response.ok = ok and the given body -/
  | response (ok : Bool) (body : PageBody)
  deriving DecidableEq

/-- Environment of one loadMore run: the fetch outcome and the value the
    data-pause-infinite-scroll attribute has once the await resumes
    (FacetFilters.applyFilters sets it to the string true mid-flight). -/
structure PagEnv where
  outcome : PagFetch
  pauseAfterFetch : String
  deriving DecidableEq

/-- The state of one custom-pagination instance, with the document-level
    pieces loadMore touches. -/
structure PagState where
  isFetching : Bool
  /-- dataset.pauseInfiniteScroll -/
  pause : String
  /-- this.controller is non-null -/
  hasController : Bool
  /-- this.pagination (none when init found no .js-pagination) -/
  pagination : Option PaginationElem
  /-- this.loadMoreButton -/
  loadMoreButton : Option LoadMoreBtn
  /-- the live .js-pagination-result elements -/
  results : List String
  /-- count of .js-when-paginated-only elements in the document -/
  whenPaginatedOnly : Nat
  /-- this.intersectingTimer is running -/
  timerActive : Bool
  /-- this.paginationObserver is observing -/
  observerActive : Bool
  deriving DecidableEq

/-- Observable effects of one loadMore run. -/
structure PagEffects where
  /-- hrefs fetched -/
  fetches : List String
  /-- results inserted after the last live result -/
  appended : List String
  deriving DecidableEq

/-- Result of one loadMore invocation: final state, effects, and whether an
    exception escaped the method (the returned promise rejected). -/
structure PagResult where
  state : PagState
  effects : PagEffects
  threw : Bool
  deriving DecidableEq

/-- The empty effect record. -/
def noPagEffects : PagEffects := { fetches := [], appended := [] }

/-- The try block of loadMore, from the button check to the pagination
    update. The Bool of the result is true when an exception was raised,
    to be handled by the catch block. -/
def loadMoreTry (s : PagState) (env : PagEnv) : PagState × PagEffects × Bool :=
  match s.loadMoreButton with
  | none => (s, noPagEffects, true)
  | some btn =>
    let btn := { btn with isLoading := true, ariaDisabled := true }
    let s := { s with loadMoreButton := some btn }
    match s.pagination with
    | none => (s, noPagEffects, true)
    | some pag =>
      let pag :=
        if pag.paginationStyle == "traditional" then { pag with isLoading := true } else pag
      let s := { s with pagination := some pag }
      let effects : PagEffects := { fetches := [btn.href], appended := [] }
      let s := { s with pause := env.pauseAfterFetch }
      match env.outcome with
      | .thrown => (s, effects, true)
      | .response ok body =>
        if !ok then (s, effects, true)
        else if s.pause == "true" then (s, effects, true)
        else
          match s.results.getLast? with
          | none => (s, effects, true)
          | some _ =>
            let s := { s with results := s.results ++ body.newResults }
            let effects := { effects with appended := body.newResults }
            match body.newPagination with
            | none => (s, effects, true)
            | some newPag =>
              if newPag.isMoreResults then
                match newPag.loadMoreHref with
                | some href2 =>
                    let btn2 : LoadMoreBtn :=
                      { href := href2, isLoading := false, ariaDisabled := false }
                    ({ s with loadMoreButton := some btn2 }, effects, false)
                | none =>
                    ({ s with loadMoreButton := none }, effects, true)
              else
                ({ s with
                    pagination := some { pag with inDom := false }
                    timerActive := false
                    observerActive := false
                    whenPaginatedOnly := 0 },
                 effects, false)

/-- The finally block of loadMore: nulls the controller, clears the button
    loading state, resets isFetching, and then reads
    this.pagination.dataset.paginationStyle, which throws a TypeError when
    this.pagination is null (the Bool of the result). -/
def loadMoreFinally (s : PagState) : PagState × Bool :=
  let s := { s with hasController := false }
  let s :=
    match s.loadMoreButton with
    | some b =>
        { s with loadMoreButton := some { b with isLoading := false, ariaDisabled := false } }
    | none => s
  let s := { s with isFetching := false }
  match s.pagination with
  | none => (s, true)
  | some p =>
      if p.paginationStyle == "traditional" then
        ({ s with pagination := some { p with isLoading := false } }, false)
      else (s, false)

/-- CustomPagination.loadMore: guard, try block, catch block (log and clear
    the interval timer), finally block. -/
def loadMore (s : PagState) (env : PagEnv) : PagResult :=
  if s.isFetching == false && s.pause == "false" then
    let s1 := { s with isFetching := true, hasController := true }
    let r := loadMoreTry s1 env
    let s2 := if r.2.2 then { r.1 with timerActive := false } else r.1
    let f := loadMoreFinally s2
    { state := f.1, effects := r.2.1, threw := f.2 }
  else
    { state := s, effects := noPagEffects, threw := false }

theorem loadMoreFinally_spec (s : PagState) (pag : PaginationElem)
    (h : s.pagination = some pag) :
    (loadMoreFinally s).2 = false
      ∧ (loadMoreFinally s).1.isFetching = false
      ∧ (loadMoreFinally s).1.hasController = false
      ∧ ∀ b, (loadMoreFinally s).1.loadMoreButton = some b →
          b.isLoading = false ∧ b.ariaDisabled = false := by
  cases hb : s.loadMoreButton with
  | none =>
      simp only [loadMoreFinally, hb, h]
      split <;> exact ⟨rfl, rfl, rfl, fun b hbb => by simp at hbb⟩
  | some b0 =>
      simp only [loadMoreFinally, hb, h]
      split <;>
        exact ⟨rfl, rfl, rfl, fun b hbb => by
          dsimp only at hbb
          injection hbb with hbb
          subst hbb
          exact ⟨rfl, rfl⟩⟩

theorem loadMoreFinally_results (s : PagState) :
    (loadMoreFinally s).1.results = s.results := by
  cases hb : s.loadMoreButton <;> cases hp : s.pagination <;>
    simp only [loadMoreFinally, hb, hp] <;> try split
  all_goals rfl

theorem loadMoreTry_pagination_isSome (s : PagState) (env : PagEnv)
    (pag : PaginationElem) (h : s.pagination = some pag) :
    ∃ pag', (loadMoreTry s env).1.pagination = some pag' := by
  cases hb : s.loadMoreButton with
  | none => simpa only [loadMoreTry, hb] using ⟨pag, h⟩
  | some btn =>
      simp only [loadMoreTry, hb, h]
      repeat' split
      all_goals exact ⟨_, rfl⟩

theorem loadMoreFinally_wpo (s : PagState) :
    (loadMoreFinally s).1.whenPaginatedOnly = s.whenPaginatedOnly := by
  cases hb : s.loadMoreButton <;> cases hp : s.pagination <;>
    simp only [loadMoreFinally, hb, hp] <;> try split
  all_goals rfl

theorem loadMoreFinally_timer (s : PagState) :
    (loadMoreFinally s).1.timerActive = s.timerActive := by
  cases hb : s.loadMoreButton <;> cases hp : s.pagination <;>
    simp only [loadMoreFinally, hb, hp] <;> try split
  all_goals rfl

theorem loadMoreFinally_observer (s : PagState) :
    (loadMoreFinally s).1.observerActive = s.observerActive := by
  cases hb : s.loadMoreButton <;> cases hp : s.pagination <;>
    simp only [loadMoreFinally, hb, hp] <;> try split
  all_goals rfl

theorem loadMoreFinally_inDom (s : PagState) :
    (loadMoreFinally s).1.pagination.map PaginationElem.inDom
      = s.pagination.map PaginationElem.inDom := by
  cases hb : s.loadMoreButton <;> cases hp : s.pagination <;>
    simp only [loadMoreFinally, hb, hp] <;> try split
  all_goals rfl

/-- C10 (amended). On an instance whose pagination element reference is
    non-null (which holds whenever loadMore is reachable through its
    internal triggers, since init only wires them up after finding the
    .js-pagination element), loadMore never propagates an exception, and
    whenever the guard admits the invocation it ends with isFetching
    false, a null abort-controller reference, and the load-more button
    (when one is referenced) free of the is-loading class and the
    aria-disabled attribute. -/
theorem loadMore_never_throws_and_resets (s : PagState) (env : PagEnv)
    (pag : PaginationElem) (hpag : s.pagination = some pag) :
    (loadMore s env).threw = false
      ∧ (s.isFetching = false → s.pause = "false" →
          (loadMore s env).state.isFetching = false
            ∧ (loadMore s env).state.hasController = false
            ∧ ∀ b, (loadMore s env).state.loadMoreButton = some b →
                b.isLoading = false ∧ b.ariaDisabled = false) := by
  by_cases h1 : s.isFetching = false
  · by_cases h2 : s.pause = "false"
    · have hg : (s.isFetching == false && s.pause == "false") = true := by simp [h1, h2]
      simp only [loadMore, hg, if_true]
      obtain ⟨pag', hpag'⟩ := loadMoreTry_pagination_isSome
        { s with isFetching := true, hasController := true } env pag hpag
      set r := loadMoreTry { s with isFetching := true, hasController := true } env with hr
      set s2 := if r.2.2 then { r.1 with timerActive := false } else r.1 with hs2
      have hs2pag : s2.pagination = some pag' := by
        rw [hs2]; split <;> simpa using hpag'
      have hf := loadMoreFinally_spec s2 pag' hs2pag
      exact ⟨hf.1, fun _ _ => ⟨hf.2.1, hf.2.2.1, hf.2.2.2⟩⟩
    · have hg : (s.isFetching == false && s.pause == "false") = false := by
        simp [beq_false_of_ne h2]
      simp only [loadMore, hg, Bool.false_eq_true, if_false]
      exact ⟨by first | rfl | trivial, fun _ hp => absurd hp h2⟩
  · have h1' : s.isFetching = true := by revert h1; cases s.isFetching <;> simp
    have hg : (s.isFetching == false && s.pause == "false") = false := by simp [h1']
    simp only [loadMore, hg, Bool.false_eq_true, if_false]
    exact ⟨by first | rfl | trivial, fun hf => absurd hf h1⟩

/-- Concrete instance state for the C10 counterexample: init found no
    .js-pagination element, so this.pagination is null, yet loadMore is
    invoked directly. -/
def pagStateNoPagination : PagState :=
  { isFetching := false, pause := "false", hasController := false
    pagination := none, loadMoreButton := none, results := []
    whenPaginatedOnly := 0, timerActive := false, observerActive := false }

/-- An arbitrary environment for the pagination counterexamples. -/
def pagEnvThrown : PagEnv := { outcome := PagFetch.thrown, pauseAfterFetch := "false" }

/-- C10 counterexample: with a null this.pagination the finally block reads
    this.pagination.dataset and the resulting TypeError escapes loadMore,
    so the invocation rejects, against the claim that loadMore never
    propagates an exception to its caller. -/
theorem loadMore_throws_when_pagination_missing :
    (loadMore pagStateNoPagination pagEnvThrown).threw = true := rfl

/-- Concrete live pagination element for the C10 witness. -/
def pagElemC10 : PaginationElem :=
  { isMoreResults := true, paginationStyle := "modern", isLoading := false, inDom := true }

/-- Concrete instance state for the C10 witness. -/
def pagStateC10 : PagState :=
  { isFetching := false, pause := "false", hasController := false
    pagination := some pagElemC10
    loadMoreButton := none, results := ["r1"]
    whenPaginatedOnly := 1, timerActive := true, observerActive := true }

/-- C10 witness: the amended theorem applied to a concrete instance whose
    load-more button is missing (so the try block throws and the catch and
    finally blocks run). -/
theorem loadMore_never_throws_and_resets_witness :
    pagStateC10.pagination = some pagElemC10
      ∧ (loadMore pagStateC10 pagEnvThrown).threw = false :=
  ⟨rfl, (loadMore_never_throws_and_resets pagStateC10 pagEnvThrown pagElemC10 rfl).1⟩

theorem loadMoreTry_pause_discard (s : PagState) (env : PagEnv)
    (hp : env.pauseAfterFetch = "true") :
    (loadMoreTry s env).2.1.appended = [] ∧ (loadMoreTry s env).1.results = s.results := by
  cases hb : s.loadMoreButton with
  | none => simp [loadMoreTry, hb, noPagEffects]
  | some btn =>
      cases hpg : s.pagination with
      | none => simp [loadMoreTry, hb, hpg, noPagEffects]
      | some pag =>
          simp [loadMoreTry, hb, hpg, hp]
          repeat' split
          all_goals simp

theorem loadMore_noop_of_guard_false (s : PagState) (env : PagEnv)
    (hg : (s.isFetching == false && s.pause == "false") = false) :
    loadMore s env = { state := s, effects := noPagEffects, threw := false } := by
  unfold loadMore
  split
  · rename_i hcond
    simp_all
  · rfl

/-- C8. At most one fetch per custom-pagination instance is in flight:
    unless isFetching is false and data-pause-infinite-scroll equals the
    string false, loadMore does nothing at all (no fetch, no DOM change,
    no state change); and when the pause attribute reads true after the
    fetch resumes (as applyFilters arranges mid-flight), the response is
    discarded before any result is appended. -/
theorem loadMore_guard_and_pause_discard (s : PagState) (env : PagEnv) :
    (s.isFetching = true ∨ s.pause ≠ "false" →
        loadMore s env = { state := s, effects := noPagEffects, threw := false })
      ∧ (env.pauseAfterFetch = "true" →
          (loadMore s env).effects.appended = []
            ∧ (loadMore s env).state.results = s.results) := by
  constructor
  · intro hguard
    have hg : (s.isFetching == false && s.pause == "false") = false := by
      rcases hguard with h | h
      · simp [h]
      · simp [beq_false_of_ne h]
    exact loadMore_noop_of_guard_false s env hg
  · intro hp
    by_cases hg : (s.isFetching == false && s.pause == "false") = true
    · simp only [loadMore, hg, if_true]
      set s1 := { s with isFetching := true, hasController := true } with hs1
      have ht := loadMoreTry_pause_discard s1 env hp
      refine ⟨ht.1, ?_⟩
      have hcatch : (if (loadMoreTry s1 env).2.2
          then { (loadMoreTry s1 env).1 with timerActive := false }
          else (loadMoreTry s1 env).1).results = (loadMoreTry s1 env).1.results := by
        split <;> rfl
      rw [loadMoreFinally_results, hcatch, ht.2]
    · have hg' : (s.isFetching == false && s.pause == "false") = false := by
        revert hg; cases h : (s.isFetching == false && s.pause == "false") <;> simp
      rw [loadMore_noop_of_guard_false s env hg']
      exact ⟨rfl, rfl⟩

/-- C8 witness: the theorem applied to an in-flight instance (first
    conjunct) and to a paused-mid-flight environment (second conjunct). -/
theorem loadMore_guard_and_pause_discard_witness :
    (loadMore { pagStateC10 with isFetching := true } pagEnvThrown
        = { state := { pagStateC10 with isFetching := true }
            , effects := noPagEffects, threw := false })
      ∧ (loadMore pagStateC10 { outcome := pagEnvThrown.outcome, pauseAfterFetch := "true" }
          ).effects.appended = [] :=
  ⟨(loadMore_guard_and_pause_discard { pagStateC10 with isFetching := true } pagEnvThrown).1
      (Or.inl rfl),
   ((loadMore_guard_and_pause_discard pagStateC10
      { outcome := pagEnvThrown.outcome, pauseAfterFetch := "true" }).2 rfl).1⟩

theorem loadMoreTry_exhaustion (s : PagState) (env : PagEnv)
    (btn : LoadMoreBtn) (pag : PaginationElem) (body : PageBody) (np : RespPagination)
    (lastRes : String)
    (hbtn : s.loadMoreButton = some btn) (hpag : s.pagination = some pag)
    (houtcome : env.outcome = PagFetch.response true body)
    (hpause : env.pauseAfterFetch = "false")
    (hlast : s.results.getLast? = some lastRes)
    (hnp : body.newPagination = some np) (hnomore : np.isMoreResults = false) :
    (loadMoreTry s env).1.pagination.map PaginationElem.inDom = some false
      ∧ (loadMoreTry s env).1.whenPaginatedOnly = 0
      ∧ (loadMoreTry s env).1.timerActive = false
      ∧ (loadMoreTry s env).1.observerActive = false
      ∧ (loadMoreTry s env).2.2 = false := by
  simp [loadMoreTry, hbtn, hpag, houtcome, hpause, hlast, hnp, hnomore]

/-- C2 (amended). Pagination exhaustion removes every internal trigger:
    when a loadMore response carries a pagination element without
    data-is-more-results, the live pagination element is detached from the
    document, every .js-when-paginated-only element is removed, the
    visibility interval timer is cleared and the IntersectionObserver
    disconnected, and the invocation completes without throwing, with
    isFetching reset — so no click, timer or observer can invoke loadMore
    again; a direct subsequent loadMore() call, however, is not a no-op
    (see the counterexample): the retained load-more button reference
    still causes a fetch and appends results again. -/
theorem loadMore_exhaustion_terminal (s : PagState) (env : PagEnv)
    (btn : LoadMoreBtn) (pag : PaginationElem) (body : PageBody) (np : RespPagination)
    (lastRes : String)
    (hidle : s.isFetching = false) (hready : s.pause = "false")
    (hbtn : s.loadMoreButton = some btn) (hpag : s.pagination = some pag)
    (houtcome : env.outcome = PagFetch.response true body)
    (hpause : env.pauseAfterFetch = "false")
    (hlast : s.results.getLast? = some lastRes)
    (hnp : body.newPagination = some np) (hnomore : np.isMoreResults = false) :
    (loadMore s env).threw = false
      ∧ (loadMore s env).state.pagination.map PaginationElem.inDom = some false
      ∧ (loadMore s env).state.whenPaginatedOnly = 0
      ∧ (loadMore s env).state.timerActive = false
      ∧ (loadMore s env).state.observerActive = false
      ∧ (loadMore s env).state.isFetching = false := by
  have hg : (s.isFetching == false && s.pause == "false") = true := by simp [hidle, hready]
  simp only [loadMore, hg, if_true]
  obtain ⟨hin, hwpo, htimer, hobs, hraised⟩ :=
    loadMoreTry_exhaustion { s with isFetching := true, hasController := true } env
      btn pag body np lastRes hbtn hpag houtcome hpause hlast hnp hnomore
  set r := loadMoreTry { s with isFetching := true, hasController := true } env with hr
  have hnc : (if r.2.2 then { r.1 with timerActive := false } else r.1) = r.1 := by
    rw [if_neg]
    rw [hraised]
    exact Bool.false_ne_true
  rw [hnc]
  obtain ⟨q, hq⟩ : ∃ q, r.1.pagination = some q := by
    cases hq : r.1.pagination with
    | none => rw [hq] at hin; cases hin
    | some q => exact ⟨q, rfl⟩
  have hf := loadMoreFinally_spec r.1 q hq
  refine ⟨hf.1, ?_, ?_, ?_, ?_, hf.2.1⟩
  · rw [loadMoreFinally_inDom, hin]
  · rw [loadMoreFinally_wpo, hwpo]
  · rw [loadMoreFinally_timer, htimer]
  · rw [loadMoreFinally_observer, hobs]

/-- Pre-exhaustion live pagination element for the C2 scenario. -/
def pagElemC2 : PaginationElem :=
  { isMoreResults := true, paginationStyle := "modern", isLoading := false, inDom := true }

/-- Pre-exhaustion load-more button for the C2 scenario. -/
def pagBtnC2 : LoadMoreBtn :=
  { href := "/collections/all?page=2", isLoading := false, ariaDisabled := false }

/-- Pre-exhaustion instance state for the C2 scenario. -/
def pagStateC2 : PagState :=
  { isFetching := false, pause := "false", hasController := false
    pagination := some pagElemC2
    loadMoreButton := some pagBtnC2
    results := ["product-1"]
    whenPaginatedOnly := 1, timerActive := true, observerActive := true }

/-- The final page body: one more result, and a pagination element with no
    data-is-more-results and no load-more button. -/
def exhaustedBodyC2 : PageBody :=
  { newResults := ["product-2"]
    newPagination := some { isMoreResults := false, loadMoreHref := none } }

/-- The environment delivering the final page. -/
def exhaustedEnvC2 : PagEnv :=
  { outcome := PagFetch.response true exhaustedBodyC2, pauseAfterFetch := "false" }

/-- The instance state after the exhausted-response loadMore run. -/
def pagStateAfterExhaustionC2 : PagState :=
  (loadMore pagStateC2 exhaustedEnvC2).state

/-- C2 counterexample: after the exhausted-response run has removed the
    pagination element from the document, a further direct loadMore() call
    is not a no-op: the retained load-more button reference makes it fetch
    the same href again and append the fetched results a second time,
    against the claim that every subsequent loadMore() call performs no
    fetch and appends no results. -/
theorem loadMore_after_exhaustion_not_noop :
    pagStateAfterExhaustionC2.pagination.map PaginationElem.inDom = some false
      ∧ (loadMore pagStateAfterExhaustionC2 exhaustedEnvC2).effects.fetches
          = ["/collections/all?page=2"]
      ∧ (loadMore pagStateAfterExhaustionC2 exhaustedEnvC2).effects.appended
          = ["product-2"] := by decide

/-- C2 witness: the amended theorem applied to the concrete scenario. -/
theorem loadMore_exhaustion_terminal_witness :
    pagStateC2.results.getLast? = some "product-1"
      ∧ (loadMore pagStateC2 exhaustedEnvC2).threw = false
      ∧ (loadMore pagStateC2 exhaustedEnvC2).state.whenPaginatedOnly = 0 := by
  refine ⟨by decide, ?_, ?_⟩
  · exact (loadMore_exhaustion_terminal pagStateC2 exhaustedEnvC2 pagBtnC2 pagElemC2
      exhaustedBodyC2 ⟨false, none⟩ "product-1" rfl rfl rfl rfl rfl rfl (by decide) rfl rfl).1
  · exact (loadMore_exhaustion_terminal pagStateC2 exhaustedEnvC2 pagBtnC2 pagElemC2
      exhaustedBodyC2 ⟨false, none⟩ "product-1" rfl rfl rfl rfl rfl rfl
      (by decide) rfl rfl).2.2.1

/-! ## CartDrawer.refresh (assets/cart-drawer.js)

    refresh wraps its body in try/catch. The try block refreshes the
    embedded cart-items component when present and not suppressed,
    otherwise fetches the named sections, parses them as JSON and renders
    them. The catch block logs and then dispatches a bubbling on:cart:error
    CustomEvent whose detail.error is this.errorMsg.textContent — but no
    statement in cart-drawer.js, main.js, cart-terms.js or the other
    source files ever assigns this.errorMsg, so on a real instance that
    property is undefined and reading textContent off it throws a
    TypeError inside the catch block, before the event is constructed. -/

/-- The JavaScript exception kind surfaced by the refresh model. -/
inductive JsError where
  /-- reading a property of undefined -/
  | typeError
  deriving DecidableEq

/-- Result of one CartDrawer.refresh invocation. -/
inductive RefreshResult where
  /-- resolved without dispatching an error event -/
  | ok
  /-- resolved after dispatching a bubbling on:cart:error event whose
      detail.error carries the given message -/
  | errorEvent (msg : String)
  /-- the async method rejected: an exception escaped refresh -/
  | rejected (e : JsError)
  deriving DecidableEq

/-- Environment of one refresh invocation: which branch of the try block
    runs and whether it fails. -/
structure RefreshEnv where
  /-- this.querySelector finds a cart-items element -/
  hasCartItems : Bool
  /-- the dontRefreshCartItems parameter -/
  dontRefreshCartItems : Bool
  /-- cartItems.refresh() throws -/
  itemsRefreshFails : Bool
  /-- the sections fetch rejects, the body is not JSON, or renderContents
      throws -/
  sectionsRenderFails : Bool
  deriving DecidableEq

/-- CartDrawer.refresh: errorMsg is the value of this.errorMsg at call
    time. When the try body fails, the catch block evaluates
    this.errorMsg.textContent while building the event detail: with
    errorMsg present the on:cart:error event is dispatched, with errorMsg
    undefined a TypeError is thrown inside catch and refresh rejects. -/
def refresh (errorMsg : Option String) (env : RefreshEnv) : RefreshResult :=
  let failed :=
    if env.hasCartItems && !env.dontRefreshCartItems then env.itemsRefreshFails
    else env.sectionsRenderFails
  if failed then
    match errorMsg with
    | some m => RefreshResult.errorEvent m
    | none => RefreshResult.rejected JsError.typeError
  else RefreshResult.ok

/-- The value of this.errorMsg on a CartDrawer instance: no source file
    ever assigns it, so it is undefined. -/
def cartDrawerErrorMsg : Option String := none

/-- C3. Contrary to the claim, a failing refresh does not dispatch an
    on:cart:error event: because this.errorMsg is never assigned, the
    catch block throws a TypeError while evaluating
    this.errorMsg.textContent, and refresh rejects to its caller. The
    failing input: a drawer without a cart-items child whose sections
    fetch rejects. -/
theorem cartDrawer_refresh_failure_rejects :
    refresh cartDrawerErrorMsg
        { hasCartItems := false, dontRefreshCartItems := false
          , itemsRefreshFails := false, sectionsRenderFails := true }
      = RefreshResult.rejected JsError.typeError
      ∧ ∀ env : RefreshEnv, ∀ m : String,
          refresh cartDrawerErrorMsg env ≠ RefreshResult.errorEvent m := by
  refine ⟨rfl, fun env m => ?_⟩
  unfold refresh cartDrawerErrorMsg
  split <;> split
  all_goals dsimp only
  all_goals split <;> simp_all

end Storefront
